import Mathlib

/-!
# Verification of the Family Promise of Spokane interpretation dashboard

Shallow embedding of `src/visuals/lg_streamlit_app.py` (a Streamlit script
wiring data upload, a 60/20/20 split, an encode+impute preprocessor, three
classifier families, and three model-interpretation modes) together with
theorems settling the specification's claims about it.

Conventions of the embedding:
* a pandas `DataFrame` is a list of column names plus rows of cells, a cell
  being `Option String` (`none` = missing value / NaN);
* Streamlit `selectbox` widgets always return an element of the option list
  they are given; we model the user's pick as a natural number reduced
  modulo the length of the option list;
* Python exceptions raised by the libraries (KeyError, IndexError,
  pandas EmptyDataError, NameError for an unbound local) are explicit
  outcome constructors;
* the spec's error taxonomy (`InvalidInputError`, `UnsupportedModelError`,
  `UnknownFeatureError`, `UnknownClassError`, `InsufficientDataError`) is
  given its own outcome constructor `appError`, so that statements of the
  form "the code raises / never raises such an error" are expressible; the
  translation of the source never produces this constructor because the
  source defines or raises no such exception anywhere;
* machine floats are modelled by `Rat` (the claims under study are about
  exact ratios, row sums and index bookkeeping, not float rounding).
-/

namespace LgApp

/-- A cell of an uploaded table; `none` models a missing value (NaN). -/
abbrev Cell := Option String

/-- A pandas data frame: named columns and rows of cells, each row aligned
positionally with `colNames`. -/
structure DataFrame where
  colNames : List String
  rows : List (List Cell)
deriving DecidableEq

/-- `df[c]`: the column named `c`, or `none` when no such column exists
(pandas raises `KeyError` in that case; callers translate `none`
accordingly). -/
def DataFrame.col (df : DataFrame) (c : String) : Option (List Cell) :=
  (df.colNames.findIdx? (fun n => n = c)).map
    (fun i => df.rows.map (fun r => r.getD i none))

/-- `df.drop(c, axis=1)`: remove every column named `c`. -/
def DataFrame.dropCol (df : DataFrame) (c : String) : DataFrame where
  colNames := df.colNames.filter (fun n => decide (n ≠ c))
  rows := df.rows.map (fun r =>
    ((df.colNames.zip r).filter (fun p => decide (p.1 ≠ c))).map (fun p => p.2))

/-- The error taxonomy of the specification (§7).  The source script never
defines or raises any of these; the constructors exist so that claims about
them can be stated and settled. -/
inductive AppError
  | InvalidInputError
  | InsufficientDataError
  | UnsupportedModelError
  | UnknownFeatureError
  | UnknownClassError
deriving DecidableEq

/-! ## Data ingestion: `upload_data` (src lines 47-63) -/

/-- Outcome of `upload_data`. -/
inductive UploadOutcome
  | ok (X : DataFrame) (y : List Cell) (df : DataFrame) (target : String)
  | noneReturn
  | pyError (name : String)
  | appError (e : AppError)
deriving DecidableEq

/-- Whether an upload outcome is one of the spec's taxonomy errors. -/
def UploadOutcome.isAppError : UploadOutcome → Bool
  | .appError _ => true
  | _ => false

/-- `pd.read_csv`: parsing an input source with no columns raises
`EmptyDataError`; otherwise the parsed frame is returned. -/
def read_csv (file : DataFrame) : Except String DataFrame :=
  if file.colNames.isEmpty then .error "EmptyDataError" else .ok file

/-- `upload_data(uploaded_file)` (src lines 47-63).  When no file is
uploaded the function body is skipped and Python returns `None`
(`noneReturn`).  Otherwise the csv is parsed, the selectbox offers the
column names with the last column moved to the front (so the last column is
the default target), the chosen column becomes the target, and the function
returns `(X, y, df, target_cols)` with `X = df.drop(target)` and
`y = df[target]`.  `choiceIdx` models the user's selectbox pick. -/
def upload_data (uploaded_file : Option DataFrame) (choiceIdx : Nat) :
    UploadOutcome :=
  match uploaded_file with
  | none => .noneReturn
  | some file =>
    match read_csv file with
    | .error e => .pyError e
    | .ok df =>
      match df.colNames.getLast? with
      | none => .pyError "IndexError"
      | some last =>
        let col_names := last :: df.colNames.dropLast
        let target_cols := col_names.getD (choiceIdx % col_names.length) last
        match df.col target_cols with
        | none => .pyError "KeyError"
        | some y => .ok (df.dropCol target_cols) y df target_cols

/-! ## Model selection branch of `main` (src lines 228-242) -/

/-- The three classifier families offered by the sidebar. -/
inductive ModelFamily
  | catBoost
  | xgBoost
  | randomForest
deriving DecidableEq

/-- The constructor arguments fixed by the source for each family:
`CatBoostClassifier(iterations=100, random_state=0, verbose=0)`,
`XGBClassifier(n_estimators=25, random_state=0, booster='gbtree',
verbosity=0)`, `RandomForestClassifier(n_estimators=25, random_state=0,
verbose=0)`.  `estimators` is `iterations` for CatBoost and
`n_estimators` for the other two. -/
structure ModelSpec where
  family : ModelFamily
  estimators : Nat
  random_state : Nat
  verbosity : Nat
deriving DecidableEq

/-- Outcome of the `if ml_name == ...` chain of `main`. -/
inductive TrainOutcome
  | trained (m : ModelSpec)
  | nameError
  | appError (e : AppError)
deriving DecidableEq

/-- Whether a training outcome is one of the spec's taxonomy errors. -/
def TrainOutcome.isAppError : TrainOutcome → Bool
  | .appError _ => true
  | _ => false

/-- The model-selection branch of `main` (src lines 231-242): three string
comparisons, each instantiating and fitting one classifier with the fixed
hyperparameters above.  There is no `else` branch, so for any other
selector the local `model` is never bound and its first later use
(`model.fit` / `model.score`, src line 246) raises `NameError`
(`nameError`). -/
def trainStep (ml_name : String) : TrainOutcome :=
  if ml_name = "CatBoost" then
    .trained ⟨.catBoost, 100, 0, 0⟩
  else if ml_name = "XGBoost" then
    .trained ⟨.xgBoost, 25, 0, 0⟩
  else if ml_name = "RandomForest" then
    .trained ⟨.randomForest, 25, 0, 0⟩
  else
    .nameError

/-- The option list offered by the model selectbox (src line 229). -/
def modelOptions : List String := ["CatBoost", "XGBoost", "RandomForest"]

/-! ## Splitting: `split_data` (src lines 66-75)

`sklearn.model_selection.train_test_split(..., train_size=a/b,
test_size=c/d, random_state=seed)` draws a seeded permutation of the rows,
takes the first `n_test = ceil(n * c/d)` rows as the test part and the next
`n_train = floor(n * a/b)` rows as the train part.  The library's seeded
permutation is modelled by an explicit `shuffle` function (a deterministic
function of the seed and the input, assumed in the theorems to produce a
permutation of its input, exactly sklearn's contract). -/

/-- One `train_test_split` call, returning `(train, test)`.  `trainNum /
trainDen` and `testNum / testDen` are the two size fractions. -/
def train_test_split {α : Type} (shuffle : Nat → List α → List α)
    (seed trainNum trainDen testNum testDen : Nat) (xs : List α) :
    List α × List α :=
  let n := xs.length
  let nTest := (n * testNum + (testDen - 1)) / testDen
  let nTrain := n * trainNum / trainDen
  let shuffled := shuffle seed xs
  ((shuffled.drop nTest).take nTrain, shuffled.take nTest)

/-- `split_data(X, y)` (src lines 66-75): an 80/20 split with seed 0
followed by a 75/25 split of the 80% remainder, again with seed 0,
returning `(X_train, X_test, X_val)` on row level.  The target `y` is
split with the same permutations, so tracking the feature rows (here: any
row representation `α`, in the theorems the row indices) determines both
splits. -/
def split_data {α : Type} (shuffle : Nat → List α → List α) (X : List α) :
    List α × List α × List α :=
  let step1 := train_test_split shuffle 0 4 5 1 5 X
  let step2 := train_test_split shuffle 0 3 4 1 4 step1.1
  (step2.1, step1.2, step2.2)

/-! ## Preprocessing: `process_data` (src lines 78-87)

The pipeline `make_pipeline(OrdinalEncoder(), SimpleImputer())` is external
library code.  Modelled from the spec (§4.3): the encoder maps each
categorical value of a column to an integer code assigned at fit time from
the fit data (values absent at fit time get code -1); missing cells pass
through the encoder and are then imputed with the per-column mean of the
encoded fit data (`SimpleImputer`'s default strategy).  The fitted
parameters are a per-column category order plus a per-column mean; the
transform is a pure function of those parameters, which we make explicit by
having it hand back the (unchanged) parameters alongside its output. -/

/-- Modelled from the spec: the fit-time parameters of the
encoder+imputer pipeline — a per-column category order assigned by the
ordinal encoder and a per-column imputation mean. -/
structure FittedProcessor where
  cats : List (List String)
  means : List Rat
deriving DecidableEq

/-- Modelled from the spec: the ordinal code of value `v` under the
fit-time category order `cats` (−1 for a value unseen at fit time). -/
def encVal (cats : List String) (v : String) : Rat :=
  match cats.findIdx? (fun w => w = v) with
  | some i => (i : Rat)
  | none => -1

/-- Mean of a list of rationals (0 for the empty list, matching `Rat`
division by zero). -/
def meanOf (xs : List Rat) : Rat := xs.sum / (xs.length : Rat)

/-- Modelled from the spec: fit the encoder+imputer on `rows` (the
training split) over `cols` feature columns.  Category orders are the
distinct values of each training column in order of appearance; means are
per-column means of the encoded non-missing training cells. -/
def fitProcessor (cols : Nat) (rows : List (List Cell)) : FittedProcessor where
  cats := (List.range cols).map
    (fun j => (rows.filterMap (fun r => r.getD j none)).dedup)
  means := (List.range cols).map (fun j =>
    let cj := (rows.filterMap (fun r => r.getD j none)).dedup
    meanOf ((rows.filterMap (fun r => r.getD j none)).map (encVal cj)))

/-- Modelled from the spec: the fitted transform on one row — encode each
present cell with the fit-time category order, impute each missing cell
with the fit-time mean. -/
def transformRow (p : FittedProcessor) (r : List Cell) : List Rat :=
  (List.range p.cats.length).map (fun j =>
    match r.getD j none with
    | some v => encVal (p.cats.getD j []) v
    | none => p.means.getD j 0)

/-- The fitted transform applied to a split.  It returns its (never
modified) fit parameters alongside the numeric matrix, making "the
transform does not change the fit state" an explicit, checkable part of
its type. -/
def transformP (p : FittedProcessor) (rows : List (List Cell)) :
    List (List Rat) × FittedProcessor :=
  (rows.map (transformRow p), p)

/-- `process_data(X_train, X_test, X_val, X)` (src lines 78-87): fit the
pipeline on the training split only (`fit_transform`), then apply the
fitted transform to the validation and test splits, and build the
feature-index-to-name mapping from `X`'s columns.  Returns
`(X_train, X_test, X_val, column_names)` plus the final fit state. -/
def process_data (X_train X_test X_val : List (List Cell)) (Xcols : List String) :
    List (List Rat) × List (List Rat) × List (List Rat) × List String ×
      FittedProcessor :=
  let p0 := fitProcessor Xcols.length X_train
  let step1 := transformP p0 X_train
  let step2 := transformP step1.2 X_val
  let step3 := transformP step2.2 X_test
  (step1.1, step3.1, step2.1, Xcols, step3.2)

/-! ## Evaluation: `make_class_metrics` (src lines 96-110)

`plot_confusion_matrix(model, training_set, target, normalize='true')`
predicts on `training_set` and computes
`confusion_matrix(y_true, y_pred, normalize='true')`: the label axis is
the ascending-sorted set of labels occurring in `y_true` or `y_pred`, cell
`(a, b)` counts samples with true label `a` and predicted label `b`, and
`normalize='true'` divides each row by its row sum (a row whose sum is
zero is left undefined by the library — NaN; `Rat` division by zero yields
0, and either way such a row does not sum to 1). -/

/-- The ascending-sorted list of distinct elements of `ys` (numpy
`np.unique`; also the `classes_` attribute that all three classifier
families expose: the sorted distinct labels of the training target). -/
def sortedUnique {α : Type} [LinearOrder α] [DecidableEq α] (ys : List α) :
    List α :=
  List.insertionSort (fun a b => a ≤ b) ys.dedup

/-- Number of (true, predicted) pairs equal to `(a, b)`. -/
def cmCount {α : Type} [DecidableEq α] (pairs : List (α × α)) (a b : α) :
    Nat :=
  pairs.countP (fun p => decide (p.1 = a) && decide (p.2 = b))

/-- The confusion matrix and its label axis for a list of (true,
predicted) pairs, before normalization. -/
def confusion_matrix {α : Type} [LinearOrder α] [DecidableEq α]
    (pairs : List (α × α)) : List (List Nat) × List α :=
  let labels := sortedUnique (pairs.map Prod.fst ++ pairs.map Prod.snd)
  (labels.map (fun a => labels.map (fun b => cmCount pairs a b)), labels)

/-- `normalize='true'`: divide each row by its row sum. -/
def rowNormalize (m : List (List Nat)) : List (List Rat) :=
  m.map (fun row => row.map (fun c : Nat => (c : Rat) / (row.sum : Rat)))

/-- The confusion-matrix part of `make_class_metrics(target, pred,
training_set, model, ml_name)` (src lines 96-110): predict on the
evaluation split, then produce the row-normalized confusion matrix and its
label axis. -/
def make_class_metrics {α ρ : Type} [LinearOrder α] [DecidableEq α]
    (target : List α) (training_set : List ρ) (predict : ρ → α) :
    List (List Rat) × List α :=
  let y_pred := training_set.map predict
  let pairs := target.zip y_pred
  let cm := confusion_matrix pairs
  (rowNormalize cm.1, cm.2)

/-- Decides the spec's row-normalization property: every row of the matrix
sums to 1. -/
def rowsSumToOne (m : List (List Rat)) : Bool :=
  m.all (fun row => decide (row.sum = 1))

/-! ## Interpretation pipeline (src lines 113-212)

The three `make_*_interpretation` functions only call into interpretation
libraries and plotting; they never reassign or refit the model.  Each
embedding returns the library invocations it performs (with the argument
values fixed by the source) paired with the model it was handed back
unchanged, so "the pipeline only reads the model" and "which library calls
run, with which parameters, on which data" are explicit. -/

/-- A call into an interpretation library, with the parameters the source
passes.  `none` for an `Option` parameter records that the source omits
the argument (the library default applies). -/
inductive LibCall
  | eli5PermImp (n_iter : Nat) (random_state : Nat) (top : Nat)
  | skPermImp (n_repeats : Option Nat) (random_state : Nat)
  | pdpIsolate (feature : String)
  | shapTreeExplainer
deriving DecidableEq

/-- The seed a library call fixes, when it takes one. -/
def LibCall.seedOf : LibCall → Option Nat
  | .eli5PermImp _ s _ => some s
  | .skPermImp _ s => some s
  | _ => none

/-- The iteration/repeat count a permutation-importance call passes
explicitly, if any. -/
def LibCall.nIterArg : LibCall → Option Nat
  | .eli5PermImp n _ _ => some n
  | .skPermImp n _ => n
  | _ => none

/-- The top-k truncation a permutation-importance call applies, if any. -/
def LibCall.topOf : LibCall → Option Nat
  | .eli5PermImp _ _ t => some t
  | _ => none

/-- `make_eli5_interpretation(training_set, target, model, features, X,
ml_name)` (src lines 113-148): two permutation-importance computations
over the same `(training_set, target)` —
`PermutationImportance(model, n_iter=1, random_state=0).fit(training_set,
target)` rendered through `explain_weights_df(..., top=10)`, and
`permutation_importance(model, training_set, target, random_state=0)`
with no `n_repeats` argument and no top-k truncation (every feature is
plotted, sorted by mean importance).  Returns the performed library calls,
each paired with the data it ran on, and the untouched model. -/
def make_eli5_interpretation {M D T : Type} (training_set : D) (target : T)
    (model : M) (features : List String) (ml_name : String) :
    List (LibCall × D × T) × M :=
  ([(LibCall.eli5PermImp 1 0 10, training_set, target),
    (LibCall.skPermImp none 0, training_set, target)], model)

/-- `value_counts()` index of a column: the distinct non-missing values
ordered by descending frequency (pandas excludes NaN and sorts by count,
descending; ties keep a deterministic order — here first appearance, via a
stable sort). -/
def valueCountsIndex (col : List Cell) : List String :=
  let vals := col.filterMap id
  List.insertionSort (fun a b => vals.count b ≤ vals.count a) vals.dedup

/-- The hardcoded label-to-curve-index table of
`make_pdp_interpretation` (src lines 168-177): five literal label strings
dispatched to five literal positions of `isolated`; any other label
matches no branch and nothing is plotted. -/
def pdpHardcodedIndex (target_value : String) : Option Nat :=
  if target_value = "Unknown/Other" then some 0
  else if target_value = "Permanent Exit" then some 1
  else if target_value = "Emergency Shelter" then some 2
  else if target_value = "Temporary Exit" then some 3
  else if target_value = "Transitional Housing" then some 4
  else none

/-- The feature selectbox of `make_pdp_interpretation` (src lines
154-156): an element of `column_names`, the user's pick modelled as an
index reduced modulo the number of options. -/
def pdpFeature (column_names : List String) (choice : Nat) : String :=
  column_names.getD (choice % column_names.length) ""

/-- The class selectbox of `make_pdp_interpretation` (src lines 158-161):
an element of the `value_counts` index of the target-exit column; `none`
when that list is empty (Streamlit then yields no selection). -/
def pdpLabel (tcol : List Cell) (choice : Nat) : Option String :=
  let class_list := valueCountsIndex tcol
  class_list.get? (choice % class_list.length)

/-- Outcome of `make_pdp_interpretation`. -/
inductive PdpOutcome
  | plotted (curveIdx : Nat) (feature : String) (label : String)
  | noPlot (feature : String) (label : String)
  | pyError (name : String)
  | appError (e : AppError)
deriving DecidableEq

/-- Whether a PDP outcome is one of the spec's taxonomy errors. -/
def PdpOutcome.isAppError : PdpOutcome → Bool
  | .appError _ => true
  | _ => false

/-- `make_pdp_interpretation(dataset, column_names, training_set, model)`
(src lines 151-181): the feature comes from a selectbox over
`column_names`; the class list is
`dataset['Target Exit Destination'].value_counts().index` — the literal
column name, regardless of which column was designated as the target — so
a dataset without that exact column raises `KeyError`; the chosen label is
dispatched through the hardcoded five-entry table, an unmatched label
producing no plot and no error.  Returns the outcome and the untouched
model. -/
def make_pdp_interpretation {M D : Type} (dataset : DataFrame)
    (column_names : List String) (training_set : D) (model : M)
    (featChoice labelChoice : Nat) : PdpOutcome × M :=
  match dataset.col "Target Exit Destination" with
  | none => (.pyError "KeyError", model)
  | some tcol =>
    let feature := pdpFeature column_names featChoice
    match pdpLabel tcol labelChoice with
    | none => (.noPlot feature "", model)
    | some target_value =>
      match pdpHardcodedIndex target_value with
      | some i => (.plotted i feature target_value, model)
      | none => (.noPlot feature target_value, model)

/-- `make_shap_interpretation(model, training_set, column_names, ml_name)`
(src lines 183-212): one `shap.TreeExplainer(model)` /
`explainer.shap_values(training_set)` computation rendered as a summary
bar plot; the local force-plot path is an unimplemented stub.  Returns the
performed library calls with their data and the untouched model. -/
def make_shap_interpretation {M D : Type} (model : M) (training_set : D)
    (column_names : List String) (ml_name : String) :
    List (LibCall × D) × M :=
  ([(LibCall.shapTreeExplainer, training_set)], model)

/-- The class list offered by PDP mode for an uploaded table: the
`value_counts` index of the column literally named
'Target Exit Destination', when it exists. -/
def pdpClassList (df : DataFrame) : Option (List String) :=
  (df.col "Target Exit Destination").map valueCountsIndex

/-- The class list PDP mode ends up offering when the whole `main` wiring
runs on an uploaded table `df` with target-selectbox pick
`targetChoice` (src lines 214-288: `upload_data` hands the full table
`df` to `make_pdp_interpretation` unchanged, whatever target was
designated). -/
def mainPdpClassList (df : DataFrame) (targetChoice : Nat) :
    Option (List String) :=
  match upload_data (some df) targetChoice with
  | .ok _ _ dfull _ => pdpClassList dfull
  | _ => none

/-- The five literal class labels of the hardcoded PDP dispatch table. -/
def fiveLabels : List String :=
  ["Unknown/Other", "Permanent Exit", "Emergency Shelter", "Temporary Exit",
   "Transitional Housing"]

/-! ## Helper lemmas -/

/-- A column lookup on a name that occurs among the column names
succeeds. -/
theorem DataFrame.col_isSome_of_mem (df : DataFrame) (c : String)
    (h : c ∈ df.colNames) : ∃ y, df.col c = some y := by
  unfold DataFrame.col
  cases hf : df.colNames.findIdx? (fun n => decide (n = c)) with
  | none =>
    exact absurd (List.findIdx?_eq_none_iff.mp hf c h) (by simp)
  | some i => exact ⟨_, rfl⟩

/-- For a table with at least one column, `upload_data` succeeds, hands the
full table back unchanged, and the chosen target is one of the table's
columns, removed from the returned feature table. -/
theorem upload_data_ok (df : DataFrame) (choiceIdx : Nat)
    (h : df.colNames ≠ []) :
    ∃ y tgt, upload_data (some df) choiceIdx
        = .ok (df.dropCol tgt) y df tgt ∧
      tgt ∈ df.colNames ∧ df.col tgt = some y ∧
      tgt ∉ (df.dropCol tgt).colNames := by
  obtain ⟨last, hlast⟩ :=
    Option.isSome_iff_exists.mp (List.getLast?_isSome.mpr h)
  have hlastmem : last ∈ df.colNames := by
    exact List.mem_of_mem_getLast? hlast
  have hne : (last :: df.colNames.dropLast).length ≠ 0 := by simp
  have hlt : choiceIdx % (last :: df.colNames.dropLast).length
      < (last :: df.colNames.dropLast).length :=
    Nat.mod_lt _ (Nat.pos_of_ne_zero hne)
  set tgt := (last :: df.colNames.dropLast).getD
    (choiceIdx % (last :: df.colNames.dropLast).length) last with htgt
  have htgtmem : tgt ∈ df.colNames := by
    have hmem : tgt ∈ last :: df.colNames.dropLast := by
      rw [htgt, List.getD_eq_getElem _ _ hlt]
      exact List.getElem_mem hlt
    rcases List.mem_cons.mp hmem with h1 | h1
    · rw [h1]; exact hlastmem
    · exact List.dropLast_subset _ h1
  obtain ⟨y, hy⟩ := DataFrame.col_isSome_of_mem df tgt htgtmem
  refine ⟨y, tgt, ?_, htgtmem, hy, ?_⟩
  · unfold upload_data read_csv
    have hE : df.colNames.isEmpty = false := by
      simp [List.isEmpty_iff, h]
    simp only [hE, Bool.false_eq_true, if_false, hlast, ← htgt, hy]
  · unfold DataFrame.dropCol
    intro hmem
    have := (List.mem_filter.mp hmem).2
    simp at this

/-! ## C7: data ingestion behaviour -/

/-- Claim C7 counterexample: with no uploaded source, `upload_data`
returns nothing at all (Python `None`) — it does not fail with
`InvalidInputError` as the claim states, nor with any of the spec's
taxonomy errors. -/
theorem upload_data_absent_counterexample :
    upload_data none 0 = UploadOutcome.noneReturn ∧
    (upload_data none 0).isAppError = false := by
  exact ⟨rfl, rfl⟩

/-- Claim C7 (amended): `upload_data` never produces one of the spec's
taxonomy errors.  An absent source yields no return value; a source with
no columns fails during parsing with the pandas `EmptyDataError`; for a
source with at least one column the call succeeds (the target column is
chosen from the source's own columns through the selectbox, so an invalid
target name cannot occur), returning the features with the target column
removed, the target column itself, and the full table. -/
theorem upload_data_spec (df : DataFrame) (choiceIdx : Nat) :
    (∀ (f : Option DataFrame) (c : Nat), (upload_data f c).isAppError = false) ∧
    upload_data none choiceIdx = UploadOutcome.noneReturn ∧
    (df.colNames = [] →
      upload_data (some df) choiceIdx = UploadOutcome.pyError "EmptyDataError") ∧
    (df.colNames ≠ [] →
      ∃ y tgt, upload_data (some df) choiceIdx
          = UploadOutcome.ok (df.dropCol tgt) y df tgt ∧
        tgt ∈ df.colNames ∧ df.col tgt = some y ∧
        tgt ∉ (df.dropCol tgt).colNames) := by
  refine ⟨?_, rfl, ?_, fun h => upload_data_ok df choiceIdx h⟩
  · intro f c
    unfold upload_data read_csv
    cases f with
    | none => rfl
    | some file =>
      by_cases hE : file.colNames.isEmpty
      · simp [hE, UploadOutcome.isAppError]
      · simp only [hE, Bool.false_eq_true, if_false]
        cases hL : file.colNames.getLast? with
        | none => simp [UploadOutcome.isAppError]
        | some last =>
          simp only
          cases hC : file.col ((last :: file.colNames.dropLast).getD
              (c % (last :: file.colNames.dropLast).length) last) with
          | none => simp [UploadOutcome.isAppError]
          | some y => simp [UploadOutcome.isAppError]
  · intro h
    unfold upload_data read_csv
    simp [h]

/-- Claim C7 witness: the amended statement instantiated at a concrete
two-column table. -/
theorem upload_data_spec_witness :
    (∀ (f : Option DataFrame) (c : Nat), (upload_data f c).isAppError = false) ∧
    upload_data none 0 = UploadOutcome.noneReturn ∧
    ((DataFrame.mk ["age", "exit"] [[some "4", some "PE"]]).colNames = [] →
      upload_data (some (DataFrame.mk ["age", "exit"] [[some "4", some "PE"]])) 0
        = UploadOutcome.pyError "EmptyDataError") ∧
    ((DataFrame.mk ["age", "exit"] [[some "4", some "PE"]]).colNames ≠ [] →
      ∃ y tgt, upload_data
            (some (DataFrame.mk ["age", "exit"] [[some "4", some "PE"]])) 0
          = UploadOutcome.ok
              ((DataFrame.mk ["age", "exit"] [[some "4", some "PE"]]).dropCol tgt)
              y (DataFrame.mk ["age", "exit"] [[some "4", some "PE"]]) tgt ∧
        tgt ∈ (DataFrame.mk ["age", "exit"] [[some "4", some "PE"]]).colNames ∧
        (DataFrame.mk ["age", "exit"] [[some "4", some "PE"]]).col tgt = some y ∧
        tgt ∉ ((DataFrame.mk ["age", "exit"] [[some "4", some "PE"]]).dropCol
          tgt).colNames) :=
  upload_data_spec (DataFrame.mk ["age", "exit"] [[some "4", some "PE"]]) 0

/-! ## C5: model-family dispatch -/

/-- Claim C5 counterexample: an unrecognized model selector does not fail
with `UnsupportedModelError` (no taxonomy error is produced at all); the
dispatch has no `else` branch, so the local `model` stays unbound and the
interaction dies later with a Python `NameError`. -/
theorem trainStep_unknown_counterexample :
    trainStep "LightGBM" = TrainOutcome.nameError ∧
    (trainStep "LightGBM").isAppError = false ∧
    modelOptions.contains "LightGBM" = false := by
  exact ⟨rfl, rfl, rfl⟩

/-- Claim C5 (amended): the trainer never raises an
`UnsupportedModelError` — for a selector outside
{CatBoost, XGBoost, RandomForest} no model is instantiated and the later
use of the unbound variable fails with `NameError` (in the running app the
selectbox restricts the selector to those three); for each selector in the
set exactly one classifier is instantiated and fitted, with the fixed
hyperparameters and the fixed seed 0 of the source. -/
theorem trainStep_dispatch (s : String) :
    (trainStep s).isAppError = false ∧
    (s ∉ modelOptions → trainStep s = TrainOutcome.nameError) ∧
    trainStep "CatBoost"
      = TrainOutcome.trained ⟨ModelFamily.catBoost, 100, 0, 0⟩ ∧
    trainStep "XGBoost"
      = TrainOutcome.trained ⟨ModelFamily.xgBoost, 25, 0, 0⟩ ∧
    trainStep "RandomForest"
      = TrainOutcome.trained ⟨ModelFamily.randomForest, 25, 0, 0⟩ := by
  refine ⟨?_, ?_, rfl, rfl, rfl⟩
  · unfold trainStep
    by_cases h1 : s = "CatBoost" <;> by_cases h2 : s = "XGBoost" <;>
      by_cases h3 : s = "RandomForest" <;>
      simp [h1, h2, h3, TrainOutcome.isAppError]
  · intro h
    have h1 : s ≠ "CatBoost" := fun hc => h (hc ▸ by decide)
    have h2 : s ≠ "XGBoost" := fun hc => h (hc ▸ by decide)
    have h3 : s ≠ "RandomForest" := fun hc => h (hc ▸ by decide)
    simp [trainStep, h1, h2, h3]

/-- Claim C5 witness: the amended statement instantiated at the
out-of-set selector "LightGBM". -/
theorem trainStep_dispatch_witness :
    (trainStep "LightGBM").isAppError = false ∧
    ("LightGBM" ∉ modelOptions → trainStep "LightGBM" = TrainOutcome.nameError) ∧
    trainStep "CatBoost"
      = TrainOutcome.trained ⟨ModelFamily.catBoost, 100, 0, 0⟩ ∧
    trainStep "XGBoost"
      = TrainOutcome.trained ⟨ModelFamily.xgBoost, 25, 0, 0⟩ ∧
    trainStep "RandomForest"
      = TrainOutcome.trained ⟨ModelFamily.randomForest, 25, 0, 0⟩ :=
  trainStep_dispatch "LightGBM"

/-! ## C4: preprocessor fit state -/

/-- Claim C4: the preprocessor's transform parameters are computed exactly
once, from the training split only — the fit state `process_data` threads
through its three transform applications is `fitProcessor` of the training
split, and replacing the validation and test splits by any others leaves
it unchanged; applying the fitted transform does not change the fit state,
and applying it twice to the same split yields identical output. -/
theorem process_data_fit_once (X_train X_test X_val X_test2 X_val2 :
      List (List Cell)) (Xcols : List String) :
    (process_data X_train X_test X_val Xcols).2.2.2.2
      = fitProcessor Xcols.length X_train ∧
    (process_data X_train X_test2 X_val2 Xcols).2.2.2.2
      = (process_data X_train X_test X_val Xcols).2.2.2.2 ∧
    (transformP (fitProcessor Xcols.length X_train) X_val).2
      = fitProcessor Xcols.length X_train ∧
    (transformP ((transformP (fitProcessor Xcols.length X_train) X_val).2)
        X_val).1
      = (transformP (fitProcessor Xcols.length X_train) X_val).1 := by
  exact ⟨rfl, rfl, rfl, rfl⟩

/-! ## C6: the interpretation pipeline only reads the model -/

/-- The read-only / determinism property of the three interpretation
modes: each hands the model back unchanged, every seeded library call of
the permutation mode fixes seed 0, and re-invoking a mode on the same
inputs reproduces its artifact exactly. -/
def ReadOnlySpec {M D T : Type} (model : M) (training_set : D) (target : T)
    (features : List String) (ml_name : String) (dataset : DataFrame)
    (column_names : List String) (f l : Nat) : Prop :=
  (make_eli5_interpretation training_set target model features ml_name).2
      = model ∧
  (make_pdp_interpretation dataset column_names training_set model f l).2
      = model ∧
  (make_shap_interpretation model training_set column_names ml_name).2
      = model ∧
  (∀ c ∈ (make_eli5_interpretation training_set target model features
      ml_name).1, (c.1).seedOf = some 0) ∧
  make_eli5_interpretation training_set target model features ml_name
    = make_eli5_interpretation training_set target model features ml_name ∧
  make_pdp_interpretation dataset column_names training_set model f l
    = make_pdp_interpretation dataset column_names training_set model f l ∧
  make_shap_interpretation model training_set column_names ml_name
    = make_shap_interpretation model training_set column_names ml_name

/-- Claim C6: for each of the three interpretation modes, the model is
only read — the returned model is the input model, every sampling-based
library call fixes a seed, and the artifact of a repeated invocation on
the same inputs is identical. -/
theorem interpretation_modes_read_only {M D T : Type} (model : M)
    (training_set : D) (target : T) (features : List String)
    (ml_name : String) (dataset : DataFrame) (column_names : List String)
    (f l : Nat) :
    ReadOnlySpec model training_set target features ml_name dataset
      column_names f l := by
  refine ⟨rfl, ?_, rfl, ?_, rfl, rfl, rfl⟩
  · unfold make_pdp_interpretation
    cases dataset.col "Target Exit Destination" with
    | none => rfl
    | some tcol =>
      simp only
      cases pdpLabel tcol l with
      | none => rfl
      | some tv =>
        simp only
        cases pdpHardcodedIndex tv with
        | none => rfl
        | some i => rfl
  · intro c hc
    rcases List.mem_cons.mp hc with h | h
    · rw [h]; rfl
    · rcases List.mem_cons.mp h with h2 | h2
      · rw [h2]; rfl
      · exact absurd h2 (List.not_mem_nil c)

/-- Claim C6 witness: the read-only property instantiated at concrete
inputs. -/
theorem interpretation_modes_read_only_witness :
    ReadOnlySpec (7 : Nat) (1 : Nat) (2 : Nat) ["f1"] "RandomForest"
      (DataFrame.mk ["a"] []) ["f1"] 0 0 :=
  interpretation_modes_read_only 7 1 2 ["f1"] "RandomForest"
    (DataFrame.mk ["a"] []) ["f1"] 0 0

/-! ## C8: PERMUTATION mode computes two rankings -/

/-- The trace property of PERMUTATION mode: exactly two
permutation-importance computations, one per library, both over the same
`(features, target)` inputs and both with seed 0 — the eli5 one with
`n_iter=1` and `top=10`, the sklearn one with the library defaults (no
explicit repeat count, no top-k truncation). -/
def Eli5TraceSpec {M D T : Type} (training_set : D) (target : T) (model : M)
    (features : List String) (ml_name : String) : Prop :=
  (make_eli5_interpretation training_set target model features ml_name).1
      = [(LibCall.eli5PermImp 1 0 10, training_set, target),
         (LibCall.skPermImp none 0, training_set, target)] ∧
  (make_eli5_interpretation training_set target model features
      ml_name).1.length = 2 ∧
  (∀ c ∈ (make_eli5_interpretation training_set target model features
      ml_name).1,
    c.2.1 = training_set ∧ c.2.2 = target ∧ (c.1).seedOf = some 0)

/-- Claim C8 (amended): PERMUTATION mode performs exactly two
independently-derived permutation-importance computations over the same
`(features, target)` inputs, one per library, each with seed 0, and
produces both; `top_k=10` and `iterations=1` apply to the eli5
computation only, while the sklearn computation is invoked with the
library defaults and no top-k truncation. -/
theorem make_eli5_two_rankings {M D T : Type} (training_set : D)
    (target : T) (model : M) (features : List String) (ml_name : String) :
    Eli5TraceSpec training_set target model features ml_name := by
  refine ⟨rfl, rfl, ?_⟩
  intro c hc
  rcases List.mem_cons.mp hc with h | h
  · rw [h]; exact ⟨rfl, rfl, rfl⟩
  · rcases List.mem_cons.mp h with h2 | h2
    · rw [h2]; exact ⟨rfl, rfl, rfl⟩
    · exact absurd h2 (List.not_mem_nil c)

/-- Claim C8 witness: the trace property instantiated at concrete
inputs. -/
theorem make_eli5_two_rankings_witness :
    Eli5TraceSpec (1 : Nat) (2 : Nat) (7 : Nat) ["f1"] "CatBoost" :=
  make_eli5_two_rankings 1 2 7 ["f1"] "CatBoost"

/-- Claim C8 counterexample: the sklearn-side permutation-importance call
of PERMUTATION mode passes no iteration count (so the claim's
`iterations=1` does not describe it — the library default applies) and
applies no top-10 truncation (so neither does `top_k=10`); only the eli5
call uses those parameters. -/
theorem make_eli5_params_counterexample :
    (LibCall.skPermImp none 0, (1 : Nat), (2 : Nat))
        ∈ (make_eli5_interpretation (1 : Nat) (2 : Nat) (7 : Nat) ["f1"]
          "CatBoost").1 ∧
    (LibCall.skPermImp none 0).nIterArg = none ∧
    (LibCall.skPermImp none 0).topOf = none ∧
    (LibCall.eli5PermImp 1 0 10).nIterArg = some 1 ∧
    (LibCall.eli5PermImp 1 0 10).topOf = some 10 := by
  exact ⟨by simp [make_eli5_interpretation], rfl, rfl, rfl, rfl⟩

/-! ## C2: PDP selector handling -/

/-- A one-row table whose target-exit column holds only the label "Foo",
which matches none of the five hardcoded branches. -/
def dfFoo : DataFrame :=
  DataFrame.mk ["Target Exit Destination"] [[some "Foo"]]

/-- The selector behaviour of PARTIAL_DEPENDENCE mode: no taxonomy error
is ever produced; a label is dispatched to a curve exactly when it is one
of the five hardcoded literals; the feature selector always lands inside
`column_names` (the selectbox restricts it there); a selected label
outside the hardcoded table yields a silent no-plot outcome. -/
def PdpSelectorSpec (dataset : DataFrame) (column_names : List String)
    (f l : Nat) : Prop :=
  (∀ (M D : Type) (training_set : D) (model : M),
    (make_pdp_interpretation dataset column_names training_set model
      f l).1.isAppError = false) ∧
  (∀ lbl, (pdpHardcodedIndex lbl).isSome = true ↔ lbl ∈ fiveLabels) ∧
  (column_names ≠ [] → pdpFeature column_names f ∈ column_names) ∧
  (∀ (M D : Type) (training_set : D) (model : M) (tcol : List Cell)
      (tv : String),
    dataset.col "Target Exit Destination" = some tcol →
    pdpLabel tcol l = some tv →
    pdpHardcodedIndex tv = none →
    (make_pdp_interpretation dataset column_names training_set model f l).1
      = PdpOutcome.noPlot (pdpFeature column_names f) tv)

/-- Claim C2 (amended): PARTIAL_DEPENDENCE mode raises neither
`UnknownClassError` nor `UnknownFeatureError` (nor any other taxonomy
error).  The feature selector cannot fall outside the processed feature
set, because the selectbox only offers `column_names`; a class selector
outside the five hardcoded labels does not fail — it silently produces no
plot; only the five literals are dispatched to a curve. -/
theorem pdp_selector_spec (dataset : DataFrame) (column_names : List String)
    (f l : Nat) : PdpSelectorSpec dataset column_names f l := by
  refine ⟨?_, ?_, ?_, ?_⟩
  · intro M D training_set model
    unfold make_pdp_interpretation
    cases dataset.col "Target Exit Destination" with
    | none => rfl
    | some tcol =>
      simp only
      cases pdpLabel tcol l with
      | none => rfl
      | some tv =>
        simp only
        cases pdpHardcodedIndex tv with
        | none => rfl
        | some i => rfl
  · intro lbl
    unfold pdpHardcodedIndex
    split_ifs with h1 h2 h3 h4 h5 <;> simp_all [fiveLabels]
  · intro h
    unfold pdpFeature
    have hlt : f % column_names.length < column_names.length :=
      Nat.mod_lt _ (List.length_pos.mpr h)
    rw [List.getD_eq_getElem _ _ hlt]
    exact List.getElem_mem hlt
  · intro M D training_set model tcol tv hcol hl hidx
    unfold make_pdp_interpretation
    simp only [hcol, hl, hidx]

/-- Claim C2 witness: the amended statement instantiated at the concrete
table `dfFoo`. -/
theorem pdp_selector_spec_witness : PdpSelectorSpec dfFoo ["f1"] 0 0 :=
  pdp_selector_spec dfFoo ["f1"] 0 0

/-- Claim C2 counterexample: on `dfFoo`, selecting the class label "Foo"
(which is in the dataset's class list but not among the hardcoded five)
produces a silent no-plot outcome — not the `UnknownClassError` the claim
requires; no taxonomy error is raised. -/
theorem pdp_unknown_label_counterexample :
    (make_pdp_interpretation dfFoo ["f1"] (0 : Nat) (0 : Nat) 0 0).1
      = PdpOutcome.noPlot "f1" "Foo" ∧
    (make_pdp_interpretation dfFoo ["f1"] (0 : Nat) (0 : Nat) 0 0).1.isAppError
      = false ∧
    pdpHardcodedIndex "Foo" = none := by
  exact ⟨by decide, by decide, rfl⟩

/-! ## C10: the PDP class-label source -/

/-- The PDP class list produced through the whole `main` wiring depends
only on the uploaded table, never on the designated target column. -/
theorem mainPdpClassList_eq (df : DataFrame) (t : Nat) :
    mainPdpClassList df t = pdpClassList df := by
  by_cases h : df.colNames = []
  · have hcol : df.col "Target Exit Destination" = none := by
      unfold DataFrame.col
      rw [h]
      rfl
    simp [mainPdpClassList, upload_data, read_csv, h, pdpClassList, hcol]
  · rcases upload_data_ok df t h with ⟨y, tgt, heq, -, -, -⟩
    simp [mainPdpClassList, heq]

/-- The class-label source of PARTIAL_DEPENDENCE mode: the labels come
from the column literally named 'Target Exit Destination' of the uploaded
table, whatever target the user designated; a table without that column
makes the mode fail with a `KeyError`; the offered order is descending
value-frequency order, which need not be the ascending-sorted class order
a trained model exposes. -/
def PdpClassSourceSpec (df : DataFrame) (t1 t2 f l : Nat) : Prop :=
  (∀ (M D : Type) (training_set : D) (model : M) (cn : List String),
    df.col "Target Exit Destination" = none →
    (make_pdp_interpretation df cn training_set model f l).1
      = PdpOutcome.pyError "KeyError") ∧
  mainPdpClassList df t1 = pdpClassList df ∧
  mainPdpClassList df t1 = mainPdpClassList df t2 ∧
  (∀ tcol : List Cell, (valueCountsIndex tcol).Sorted
    (fun a b => (tcol.filterMap id).count b ≤ (tcol.filterMap id).count a)) ∧
  valueCountsIndex [some "B", some "B", some "A"] = ["B", "A"] ∧
  sortedUnique ["B", "B", "A"] = ["A", "B"]

/-- Claim C10: PARTIAL_DEPENDENCE mode always draws its selectable class
labels from the column literally named 'Target Exit Destination',
independently of the designated target; a dataset without that column
fails with a lookup error instead of producing a curve; and the offered
label order is the column's descending value-frequency order — on the
concrete column [B, B, A] that order is [B, A], while the ascending-sorted
class ordering a model trained on those labels exposes is [A, B]. -/
theorem pdp_class_source (df : DataFrame) (t1 t2 f l : Nat) :
    PdpClassSourceSpec df t1 t2 f l := by
  refine ⟨?_, mainPdpClassList_eq df t1, ?_, ?_, ?_, ?_⟩
  · intro M D training_set model cn hcol
    unfold make_pdp_interpretation
    simp only [hcol]
  · rw [mainPdpClassList_eq df t1, mainPdpClassList_eq df t2]
  · intro tcol
    show List.Sorted
      (fun a b => (tcol.filterMap id).count b ≤ (tcol.filterMap id).count a)
      (List.insertionSort
        (fun a b => (tcol.filterMap id).count b ≤ (tcol.filterMap id).count a)
        (tcol.filterMap id).dedup)
    haveI : IsTotal String
        (fun a b => (tcol.filterMap id).count b ≤ (tcol.filterMap id).count a) :=
      ⟨fun a b => Nat.le_total _ _⟩
    haveI : IsTrans String
        (fun a b => (tcol.filterMap id).count b ≤ (tcol.filterMap id).count a) :=
      ⟨fun _ _ _ hab hbc => Nat.le_trans hbc hab⟩
    exact List.sorted_insertionSort _ _
  · decide
  · unfold sortedUnique
    refine List.eq_of_perm_of_sorted
      ((List.perm_insertionSort _ _).trans (by decide))
      (List.sorted_insertionSort _ _) ?_
    refine List.Pairwise.cons ?_ (List.Pairwise.cons ?_ List.Pairwise.nil) <;>
      (intro b hb; fin_cases hb) <;>
      (rw [String.le_iff_toList_le]; decide)

/-- Claim C10 witness: the class-source property instantiated at a table
without the magic column. -/
theorem pdp_class_source_witness :
    PdpClassSourceSpec (DataFrame.mk ["other"] []) 0 1 0 0 :=
  pdp_class_source (DataFrame.mk ["other"] []) 0 1 0 0

/-! ## C1: hardcoded curve index versus the model's class ordering -/

/-- Claim C1: the PDP dispatch maps the label 'Unknown/Other' to curve
index 0, but the learned class ordering of a model trained on a target
with the five labels (the ascending-sorted distinct labels, which all
three classifier families expose as their class order) places
'Unknown/Other' at position 4 — the hardcoded table does not preserve the
model's class ordering. -/
theorem pdp_hardcoded_index_bug :
    pdpHardcodedIndex "Unknown/Other" = some 0 ∧
    sortedUnique fiveLabels
      = ["Emergency Shelter", "Permanent Exit", "Temporary Exit",
         "Transitional Housing", "Unknown/Other"] ∧
    (sortedUnique fiveLabels).indexOf "Unknown/Other" = 4 := by
  have hs : sortedUnique fiveLabels
      = ["Emergency Shelter", "Permanent Exit", "Temporary Exit",
         "Transitional Housing", "Unknown/Other"] := by
    unfold sortedUnique
    refine List.eq_of_perm_of_sorted
      ((List.perm_insertionSort _ _).trans (by decide))
      (List.sorted_insertionSort _ _) ?_
    refine List.Pairwise.cons ?_ (List.Pairwise.cons ?_ (List.Pairwise.cons ?_
      (List.Pairwise.cons ?_ (List.Pairwise.cons ?_ List.Pairwise.nil)))) <;>
      (intro b hb; fin_cases hb) <;>
      (rw [String.le_iff_toList_le]; decide)
  refine ⟨rfl, hs, ?_⟩
  rw [hs]
  decide

/-! ## C3: the 60/20/20 split -/

/-- One `train_test_split` call on any input whose size fractions add up
exactly: train and test together are a permutation of the input, and the
two part sizes are the floor of the train fraction and the ceiling of the
test fraction (sklearn's rounding). -/
theorem train_test_split_parts {α : Type} (shuffle : Nat → List α → List α)
    (hsh : ∀ s l, (shuffle s l).Perm l) (seed a b c d : Nat) (xs : List α)
    (hsum : xs.length * a / b + (xs.length * c + (d - 1)) / d = xs.length) :
    ((train_test_split shuffle seed a b c d xs).1
        ++ (train_test_split shuffle seed a b c d xs).2).Perm xs ∧
    (train_test_split shuffle seed a b c d xs).2.length
      = (xs.length * c + (d - 1)) / d ∧
    (train_test_split shuffle seed a b c d xs).1.length
      = xs.length * a / b := by
  have hp : (shuffle seed xs).Perm xs := hsh seed xs
  have hl : (shuffle seed xs).length = xs.length := hp.length_eq
  simp only [train_test_split]
  obtain ⟨nTrain, hN⟩ : ∃ k, xs.length * a / b = k := ⟨_, rfl⟩
  obtain ⟨nTest, hT⟩ : ∃ k, (xs.length * c + (d - 1)) / d = k := ⟨_, rfl⟩
  rw [hN, hT] at hsum ⊢
  have hdrop : ((shuffle seed xs).drop nTest).length = nTrain := by
    rw [List.length_drop, hl]; omega
  have htake : ((shuffle seed xs).drop nTest).take nTrain
      = (shuffle seed xs).drop nTest :=
    List.take_of_length_le (le_of_eq hdrop)
  refine ⟨?_, ?_, ?_⟩
  · rw [htake]
    refine List.Perm.trans ?_ hp
    refine List.perm_append_comm.trans ?_
    rw [List.take_append_drop]
  · rw [List.length_take, hl]; omega
  · rw [htake]; exact hdrop

/-- The partition property claimed for `split_data` on row indices
`0, …, n-1`: the three parts are pairwise disjoint, together a
permutation of the full index set, with `|test| = ceil(n/5)` and
`floor(n/5) ≤ |val| ≤ ceil(n/5)`, and the computation is deterministic
for the (fixed-seed) shuffle. -/
def SplitSpec (shuffle : Nat → List Nat → List Nat) (n : Nat) : Prop :=
  ((split_data shuffle (List.range n)).1
      ++ ((split_data shuffle (List.range n)).2.2
        ++ (split_data shuffle (List.range n)).2.1)).Perm (List.range n) ∧
  (split_data shuffle (List.range n)).1.Disjoint
    (split_data shuffle (List.range n)).2.2 ∧
  (split_data shuffle (List.range n)).1.Disjoint
    (split_data shuffle (List.range n)).2.1 ∧
  (split_data shuffle (List.range n)).2.2.Disjoint
    (split_data shuffle (List.range n)).2.1 ∧
  (split_data shuffle (List.range n)).2.1.length = (n + 4) / 5 ∧
  n / 5 ≤ (split_data shuffle (List.range n)).2.2.length ∧
  (split_data shuffle (List.range n)).2.2.length ≤ (n + 4) / 5 ∧
  split_data shuffle (List.range n) = split_data shuffle (List.range n)

/-- Claim C3: for every input (of any size), the two sequential
80/20 and 75/25 `train_test_split` calls of `split_data` produce train,
validation and test row-index lists that are pairwise disjoint and
together a permutation of the full row-index set, with
`|test| = ceil(0.20 n)` and `|val|` between `floor(0.20 n)` and
`ceil(0.20 n)`; with the seeded shuffle fixed, the result of a repeated
invocation is identical. -/
theorem split_data_spec (shuffle : Nat → List Nat → List Nat)
    (hsh : ∀ s l, (shuffle s l).Perm l) (n : Nat) : SplitSpec shuffle n := by
  have hsum1 : (List.range n).length * 4 / 5
      + ((List.range n).length * 1 + (5 - 1)) / 5 = (List.range n).length := by
    rw [List.length_range]; omega
  obtain ⟨hperm1, hlen_test, hlen_tv⟩ :=
    train_test_split_parts shuffle hsh 0 4 5 1 5 (List.range n) hsum1
  obtain ⟨hperm2, hlen_val, hlen_train⟩ :=
    train_test_split_parts shuffle hsh 0 3 4 1 4
      (train_test_split shuffle 0 4 5 1 5 (List.range n)).1 (by omega)
  rw [List.length_range] at hlen_test hlen_tv
  set A := train_test_split shuffle 0 4 5 1 5 (List.range n) with hA
  set B := train_test_split shuffle 0 3 4 1 4 A.1 with hB
  have hsd : split_data shuffle (List.range n) = (B.1, A.2, B.2) := rfl
  have hgoal1 : (B.1 ++ (B.2 ++ A.2)).Perm (List.range n) := by
    have h := (hperm2.append_right A.2).trans hperm1
    rwa [List.append_assoc] at h
  have hnd : (B.1 ++ (B.2 ++ A.2)).Nodup :=
    hgoal1.nodup_iff.mpr (List.nodup_range n)
  obtain ⟨-, hnd23, hdisj⟩ := List.nodup_append.mp hnd
  obtain ⟨hd12, hd13⟩ := List.disjoint_append_right.mp hdisj
  obtain ⟨-, -, hd23⟩ := List.nodup_append.mp hnd23
  unfold SplitSpec
  rw [hsd]
  dsimp only
  exact ⟨hgoal1, hd12, hd13, hd23, by omega, by omega, by omega, rfl⟩

/-- Claim C3 witness: the split property instantiated with the identity
shuffle on 10 rows. -/
theorem split_data_spec_witness : SplitSpec (fun _ l => l) 10 :=
  split_data_spec (fun _ l => l) (fun _ l => List.Perm.refl l) 10

/-! ## C9: confusion-matrix normalization and class order -/

/-- Sums of pointwise-added maps split. -/
theorem sum_map_add {α : Type} (l : List α) (f g : α → Nat) :
    (l.map (fun x => f x + g x)).sum = (l.map f).sum + (l.map g).sum := by
  induction l with
  | nil => rfl
  | cons x xs ih => simp [ih]; omega

/-- Summing the indicator of `x` over a list counts `x`. -/
theorem sum_indicator_eq_count {α : Type} [DecidableEq α] (labels : List α)
    (x : α) :
    (labels.map (fun b => if x = b then 1 else 0)).sum = labels.count x := by
  induction labels with
  | nil => rfl
  | cons y ys ih =>
    simp only [List.map_cons, List.sum_cons, ih, List.count_cons, beq_iff_eq]
    by_cases h : x = y
    · rw [if_pos h, if_pos h.symm]
      omega
    · rw [if_neg h, if_neg (fun hh => h hh.symm)]
      omega

/-- Over a duplicate-free label axis containing every predicted label, a
confusion-matrix row sums to the number of samples whose true label is the
row's label. -/
theorem row_sum_eq_countP {α : Type} [DecidableEq α] (labels : List α)
    (pairs : List (α × α)) (a : α) (hnd : labels.Nodup)
    (hcov : ∀ p ∈ pairs, p.2 ∈ labels) :
    (labels.map (fun b => cmCount pairs a b)).sum
      = pairs.countP (fun p => decide (p.1 = a)) := by
  induction pairs with
  | nil => simp [cmCount]
  | cons p rest ih =>
    have hmem : p.2 ∈ labels := hcov p (List.mem_cons_self p rest)
    have hrest : ∀ q ∈ rest, q.2 ∈ labels :=
      fun q hq => hcov q (List.mem_cons_of_mem p hq)
    have hsplit : ∀ b, cmCount (p :: rest) a b
        = cmCount rest a b + (if p.1 = a ∧ p.2 = b then 1 else 0) := by
      intro b
      rw [cmCount, List.countP_cons]
      by_cases h1 : p.1 = a <;> by_cases h2 : p.2 = b <;>
        simp [cmCount, h1, h2]
    have hind : (labels.map (fun b =>
        if p.1 = a ∧ p.2 = b then 1 else 0)).sum
        = if p.1 = a then 1 else 0 := by
      by_cases h1 : p.1 = a
      · rw [if_pos h1]
        have heach : ∀ b, (if p.1 = a ∧ p.2 = b then 1 else 0)
            = (if p.2 = b then (1 : Nat) else 0) := by
          intro b
          by_cases h2 : p.2 = b <;> simp [h1, h2]
        simp only [heach]
        rw [sum_indicator_eq_count labels p.2]
        exact List.count_eq_one_of_mem hnd hmem
      · simp [h1]
    have hmap : (labels.map (fun b => cmCount (p :: rest) a b)).sum
        = (labels.map (fun b => cmCount rest a b)).sum
          + (labels.map (fun b =>
              if p.1 = a ∧ p.2 = b then 1 else 0)).sum := by
      rw [← sum_map_add]
      simp only [hsplit]
    rw [List.countP_cons, hmap, ih hrest, hind]
    by_cases h1 : p.1 = a <;> simp [h1]

/-- Dividing every entry of a row by a common denominator divides the
row sum. -/
theorem sum_map_div_nat (l : List Nat) (dv : Rat) :
    (List.map (fun c : Nat => (c : Rat) / dv) l).sum = (l.sum : Rat) / dv := by
  induction l with
  | nil => simp
  | cons x xs ih =>
    simp only [List.map_cons, List.sum_cons, ih]
    push_cast
    rw [div_add_div_same]

/-- Two lists with the same distinct elements have the same
ascending-sorted distinct-element list. -/
theorem sortedUnique_eq_of_dedup_perm {α : Type} [LinearOrder α]
    [DecidableEq α] {l₁ l₂ : List α} (h : l₁.dedup.Perm l₂.dedup) :
    sortedUnique l₁ = sortedUnique l₂ := by
  refine List.eq_of_perm_of_sorted ?_ (List.sorted_insertionSort _ _)
    (List.sorted_insertionSort _ _)
  exact (List.perm_insertionSort _ _).trans
    (h.trans (List.perm_insertionSort _ _).symm)

/-- Two lists have the same ascending-sorted distinct-element list if and
only if they have the same distinct elements. -/
theorem sortedUnique_eq_iff_dedup_perm {α : Type} [LinearOrder α]
    [DecidableEq α] (l₁ l₂ : List α) :
    sortedUnique l₁ = sortedUnique l₂ ↔ l₁.dedup.Perm l₂.dedup := by
  constructor
  · intro h
    have h1 : (sortedUnique l₁).Perm l₁.dedup := List.perm_insertionSort _ _
    have h2 : (sortedUnique l₂).Perm l₂.dedup := List.perm_insertionSort _ _
    rw [← h] at h2
    exact h1.symm.trans h2
  · exact sortedUnique_eq_of_dedup_perm

/-- Zipping a list with its own image pairs each element with its
image. -/
theorem zip_self_map {α β : Type} (l : List α) (h : α → β) :
    l.zip (l.map h) = l.map (fun a => (a, h a)) := by
  induction l with
  | nil => rfl
  | cons x xs ih => simp [ih]

/-- Claim C9 (amended): pairing each label of the confusion matrix's axis
with its row of the row-normalized matrix — a row whose label occurs among
the evaluation split's true labels sums to exactly 1, while a row whose
label was only ever predicted, never true, is all-zero (and so sums to 0,
not 1); and the matrix's class order equals the model's learned class
ordering (the ascending-sorted distinct training labels) if and only if
the labels observed in the evaluation split (true or predicted) coincide,
as a set, with the training labels. -/
theorem make_class_metrics_spec {α ρ : Type} [LinearOrder α] [DecidableEq α]
    (target : List α) (ts : List ρ) (predict : ρ → α) (y_train : List α) :
    (∀ p ∈ (make_class_metrics target ts predict).2.zip
        (make_class_metrics target ts predict).1,
      (p.1 ∈ (target.zip (ts.map predict)).map Prod.fst → p.2.sum = 1) ∧
      (p.1 ∉ (target.zip (ts.map predict)).map Prod.fst →
        p.2.sum = 0 ∧ ∀ x ∈ p.2, x = 0)) ∧
    ((make_class_metrics target ts predict).2 = sortedUnique y_train ↔
      ((target.zip (ts.map predict)).map Prod.fst
        ++ (target.zip (ts.map predict)).map Prod.snd).dedup.Perm
        y_train.dedup) := by
  constructor
  · have hnd : (sortedUnique ((target.zip (ts.map predict)).map Prod.fst
        ++ (target.zip (ts.map predict)).map Prod.snd)).Nodup :=
      (List.perm_insertionSort _ _).nodup_iff.mpr (List.nodup_dedup _)
    have hcov2 : ∀ q ∈ target.zip (ts.map predict),
        q.2 ∈ sortedUnique ((target.zip (ts.map predict)).map Prod.fst
          ++ (target.zip (ts.map predict)).map Prod.snd) := by
      intro q hq
      unfold sortedUnique
      rw [List.mem_insertionSort, List.mem_dedup]
      exact List.mem_append_right _ (List.mem_map_of_mem Prod.snd hq)
    set pairs := target.zip (ts.map predict) with hpairs
    set labels := sortedUnique (pairs.map Prod.fst ++ pairs.map Prod.snd)
      with hlabels
    have hmm2 : (make_class_metrics target ts predict).2 = labels := rfl
    have hmm1 : (make_class_metrics target ts predict).1
        = rowNormalize (labels.map (fun a => labels.map
            (fun b => cmCount pairs a b))) := rfl
    rw [hmm1, hmm2, rowNormalize, List.map_map, zip_self_map]
    intro p hp
    obtain ⟨a, hamem, hpa⟩ := List.mem_map.mp hp
    rw [← hpa]
    dsimp only [Function.comp]
    constructor
    · intro ha
      have hsumrow : (labels.map (fun b => cmCount pairs a b)).sum
          = pairs.countP (fun q => decide (q.1 = a)) :=
        row_sum_eq_countP labels pairs a hnd hcov2
      obtain ⟨q, hq, hqa⟩ := List.mem_map.mp ha
      have hpos : 0 < pairs.countP (fun q => decide (q.1 = a)) :=
        List.countP_pos.mpr ⟨q, hq, by simp [hqa]⟩
      have hne : (((labels.map (fun b => cmCount pairs a b)).sum : Nat)
          : Rat) ≠ 0 := by
        rw [hsumrow]
        exact_mod_cast Nat.pos_iff_ne_zero.mp hpos
      rw [sum_map_div_nat]
      exact div_self hne
    · intro ha
      have hzero : ∀ b, cmCount pairs a b = 0 := by
        intro b
        rw [cmCount, List.countP_eq_zero]
        intro q hq
        have hq1 : q.1 ≠ a := fun h => ha (h ▸ List.mem_map_of_mem Prod.fst hq)
        simp [hq1]
      have hall : ∀ x ∈ List.map (fun c : Nat => (c : Rat)
          / ((labels.map (fun b => cmCount pairs a b)).sum : Rat))
          (labels.map (fun b => cmCount pairs a b)), x = 0 := by
        intro x hx
        obtain ⟨c, hc, hcx⟩ := List.mem_map.mp hx
        obtain ⟨b, hb, hcb⟩ := List.mem_map.mp hc
        rw [← hcx, ← hcb, hzero b]
        simp
      exact ⟨List.sum_eq_zero hall, hall⟩
  · exact sortedUnique_eq_iff_dedup_perm _ _

/-- Claim C9 witness: the amended statement instantiated at the mixed
evaluation split whose matrix has one covered row (class 0, summing to 1)
and one predicted-only row (class 1, all-zero), with a training target
whose class 2 the split never exhibits. -/
theorem make_class_metrics_spec_witness :
    (∀ p ∈ (make_class_metrics [0, 0] [0, 1]
        (fun i : Nat => if i = 0 then 0 else 1)).2.zip
        (make_class_metrics [0, 0] [0, 1]
          (fun i : Nat => if i = 0 then 0 else 1)).1,
      (p.1 ∈ (([0, 0] : List Nat).zip (([0, 1] : List Nat).map
          (fun i : Nat => if i = 0 then 0 else 1))).map Prod.fst →
        p.2.sum = 1) ∧
      (p.1 ∉ (([0, 0] : List Nat).zip (([0, 1] : List Nat).map
          (fun i : Nat => if i = 0 then 0 else 1))).map Prod.fst →
        p.2.sum = 0 ∧ ∀ x ∈ p.2, x = 0)) ∧
    ((make_class_metrics [0, 0] [0, 1]
        (fun i : Nat => if i = 0 then 0 else 1)).2
        = sortedUnique [0, 1, 2] ↔
      ((([0, 0] : List Nat).zip (([0, 1] : List Nat).map
          (fun i : Nat => if i = 0 then 0 else 1))).map Prod.fst
        ++ (([0, 0] : List Nat).zip (([0, 1] : List Nat).map
          (fun i : Nat => if i = 0 then 0 else 1))).map
            Prod.snd).dedup.Perm ([0, 1, 2] : List Nat).dedup) :=
  make_class_metrics_spec [0, 0] [0, 1]
    (fun i : Nat => if i = 0 then 0 else 1) [0, 1, 2]

/-- Claim C9 counterexample: on an evaluation split whose true labels are
all 0 but where the model also predicts label 1, the row-normalized
confusion matrix has a zero row — its rows do not all sum to 1; and on a
split with no instance of training class 2, the matrix's label axis
[0, 1] is not the model's learned class ordering [0, 1, 2]. -/
theorem make_class_metrics_counterexample :
    rowsSumToOne (make_class_metrics [0, 0] [0, 1]
      (fun i : Nat => if i = 0 then 0 else 1)).1 = false ∧
    (make_class_metrics [0, 0] [0, 1]
      (fun i : Nat => if i = 0 then 0 else 1)).2 = [0, 1] ∧
    sortedUnique [0, 1, 2] = [0, 1, 2] := by
  refine ⟨?_, by decide, by decide⟩
  have hcm : (confusion_matrix
      (([0, 0] : List Nat).zip (([0, 1] : List Nat).map
        (fun i : Nat => if i = 0 then 0 else 1)))).1 = [[1, 1], [0, 0]] := by
    decide
  show rowsSumToOne (rowNormalize (confusion_matrix
    (([0, 0] : List Nat).zip (([0, 1] : List Nat).map
      (fun i : Nat => if i = 0 then 0 else 1)))).1) = false
  rw [hcm]
  rw [rowsSumToOne, rowNormalize]
  simp only [List.map_cons, List.map_nil, List.sum_cons, List.sum_nil,
    List.all_cons, List.all_nil]
  norm_num

end LgApp
